import Mathlib

/-!
Verification development for the TRACER framework (network path analysis
tool).  The Python sources are embedded shallowly:

* JSON documents become the inductive `Json` (strings, integers, arrays of
  strings, and objects as ordered association lists — exactly the shapes the
  program produces);
* `JsonStorage` becomes a pure function over an explicit `FileState`
  (the contents of `tracer_database.json`), with an explicit failure-point
  parameter for the fallible steps of `save_case`;
* `MongoStorageSync` becomes a pure function over a `MongoState` (the
  `cases` collection), with a boolean failure flag modelling a thrown
  `pymongo` exception caught by the `except` blocks;
* the in-memory `NetworkPathAnalyzer.analysis` dict becomes the structure
  `Analysis`, and the path-editing operations (`display_current_path`,
  the element-adding body of `enrich_analysis`, `add_pivot_point`, and the
  element-adding loop of the API's `update_case`) become pure functions on
  it.
-/

/-- JSON values as produced by the program: strings, integers, arrays of
strings (`path_sequence`, the always-empty `additional_data`), and objects
kept as ordered association lists (Python 3.7+ dicts preserve insertion
order). -/
inductive Json where
  | str (s : String)
  | num (n : Int)
  | arrStr (xs : List String)
  | obj (fields : List (String × Json))

namespace Json

/-- Python `d[k]` / `k in d` support: field lookup on an object; `none` on a
non-object (where Python `.get` would raise `AttributeError`). -/
def get? : Json → String → Option Json
  | .obj fs, k => List.lookup k fs
  | _, _ => none

/-- Python `d.get(k, default)`. -/
def getD (j : Json) (k : String) (d : Json) : Json := (j.get? k).getD d

/-- The keys of an object, in insertion order (`list(d.keys())`). -/
def keys : Json → List String
  | .obj fs => fs.map (·.1)
  | _ => []

end Json

/-- Python dict assignment `d[k] = v`: replaces the value in place when the
key exists (keeping its position), otherwise appends the new key at the
end — exactly CPython's insertion-order semantics. -/
def upsert : List (String × Json) → String → Json → List (String × Json)
  | [], id, d => [(id, d)]
  | (k, v) :: rest, id, d =>
      if k == id then (k, d) :: rest else (k, v) :: upsert rest id d

namespace JsonStorage

/-- Durable state of `tracer_database.json`.
`absent`: the file does not exist (`open` raises `FileNotFoundError`);
`corrupt`: the file exists but `json.load` raises on it — this is also the
state left behind when `open(.., 'w')` has truncated the file and
`json.dump` then failed partway through (a partial document);
`db cases`: a well-formed database whose `"cases"` object holds the given
case documents. -/
inductive FileState where
  | absent
  | corrupt
  | db (cases : List (String × Json))

/-- Failure injection for `save_case`: no failure, an I/O failure while
reading the database back in, or an I/O / serialization failure after
`open(self.db_filename, 'w')` has already truncated the file (Python's
`json.dump` streams into the file, so such a failure leaves a partial
document behind). -/
inductive SaveFailure where
  | none
  | duringRead
  | duringWrite

/-- `JsonStorage.save_case`: load the database, set
`db_data["cases"][case_id] = case_data`, write the database back.  Every
exception is caught and turned into `False`; a read-side failure leaves the
file untouched, a write-side failure leaves the truncated/partial file. -/
def save_case (fail : SaveFailure) (s : FileState) (id : String)
    (doc : Json) : Bool × FileState :=
  match s with
  | .absent => (false, .absent)
  | .corrupt => (false, .corrupt)
  | .db cases =>
    match fail with
    | .duringRead => (false, .db cases)
    | .duringWrite => (false, .corrupt)
    | .none => (true, .db (upsert cases id doc))

/-- The pre-built default document of `JsonStorage.load_case`:
`{"initial_detection": {}, "network_elements": {}, "path_sequence": []}`. -/
def emptySkeleton : Json :=
  Json.obj [("initial_detection", Json.obj []),
            ("network_elements", Json.obj []),
            ("path_sequence", Json.arrStr [])]

/-- `JsonStorage.load_case`: starts from the skeleton, then (inside
`try`) copies the three content fields out of the stored case with
`stored_case.get(key, default)`.  Any exception (missing file, corrupt
file, `.get` on a non-dict stored value) is caught, leaving the skeleton. -/
def load_case (s : FileState) (id : String) : Json :=
  match s with
  | .db cases =>
    match List.lookup id cases with
    | some stored =>
      match stored with
      | .obj fs =>
          Json.obj
            [("initial_detection",
                (Json.obj fs).getD "initial_detection" (Json.obj [])),
             ("network_elements",
                (Json.obj fs).getD "network_elements" (Json.obj [])),
             ("path_sequence",
                (Json.obj fs).getD "path_sequence" (Json.arrStr []))]
      | _ => emptySkeleton
    | none => emptySkeleton
  | _ => emptySkeleton

/-- `JsonStorage.list_cases`: `[]` when the file is missing
(`os.path.exists` check) or unreadable (caught exception), otherwise the
keys of the `"cases"` object. -/
def list_cases (s : FileState) : List String :=
  match s with
  | .db cases => cases.map (·.1)
  | _ => []

/-- `JsonStorage.case_exists`: `case_id in db_data.get("cases", {})`, with
every exception caught as `False`. -/
def case_exists (s : FileState) (id : String) : Bool :=
  match s with
  | .db cases => (List.lookup id cases).isSome
  | _ => false

end JsonStorage

namespace MongoStorageSync

/-- A document of the `cases` collection:
`{"case_id": .., "timestamp": .., "data": case_data}` as built by
`MongoStorageSync.save_case` (the timestamp is `datetime.now()`, passed in
as an abstract clock value). -/
structure MongoDoc where
  case_id : String
  timestamp : Nat
  data : Json

/-- The `cases` collection (its `case_id` field carries a unique index). -/
structure MongoState where
  cases : List MongoDoc

/-- `replace_one({"case_id": id}, doc, upsert=True)`: replace the first
matching document, or append the new one when no document matches. -/
def replaceOne : List MongoDoc → String → MongoDoc → List MongoDoc
  | [], _, doc => [doc]
  | c :: cs, id, doc =>
      if c.case_id == id then doc :: cs else c :: replaceOne cs id doc

/-- `MongoStorageSync.save_case`: wraps the case data and upserts it with a
single atomic `replace_one`; any exception is caught and reported as
`False` with the collection untouched (the single-document replace either
happens entirely on the server or not at all). -/
def save_case (fail : Bool) (s : MongoState) (id : String) (doc : Json)
    (now : Nat) : Bool × MongoState :=
  if fail then (false, s)
  else (true, ⟨replaceOne s.cases id ⟨id, now, doc⟩⟩)

/-- `MongoStorageSync.load_case`: `find_one({"case_id": id})`, then
`document["data"] if document else {}`; any exception is caught and `{}`
is returned. -/
def load_case (fail : Bool) (s : MongoState) (id : String) : Json :=
  if fail then Json.obj []
  else
    match s.cases.find? (fun c => c.case_id == id) with
    | some d => d.data
    | none => Json.obj []

/-- `MongoStorageSync.list_cases`: the `case_id` of every document, `[]` on
a caught exception. -/
def list_cases (fail : Bool) (s : MongoState) : List String :=
  if fail then [] else s.cases.map (·.case_id)

/-- `MongoStorageSync.case_exists`:
`count_documents({"case_id": id}) > 0`, `False` on a caught exception. -/
def case_exists (fail : Bool) (s : MongoState) (id : String) : Bool :=
  if fail then false
  else 0 < (s.cases.filter (fun c => c.case_id == id)).length

end MongoStorageSync

/-- Python `list.insert(i, x)` for a non-negative index: inserts before
position `i`, clamping to an append when `i` exceeds the length. -/
def pyInsert {α : Type} : Nat → α → List α → List α
  | 0, x, l => x :: l
  | _ + 1, x, [] => [x]
  | n + 1, x, y :: l => y :: pyInsert n x l

/-- The slice of `NetworkPathAnalyzer.analysis` the path-editing operations
read and write: the `initial_detection` dict, the `network_elements` dict
(element name to element document) and the ordered `path_sequence`. -/
structure Analysis where
  initial_detection : Json
  network_elements : List (String × Json)
  path_sequence : List String

/-- One value of the `insertion_points` dict built by
`display_current_path`: the array position the point maps to, its `"type"`
tag and, for `after_element` points, the element it follows. -/
structure InsertionPoint where
  position : Nat
  ptype : String
  element : Option String

/-- `NetworkPathAnalyzer.display_current_path`, restricted to its return
value: the printing only formats the path, while the `insertion_points`
dict it returns maps point 1 to `position 0` (`after_source`) and, for each
`idx`-th entry of `path_sequence`, point `idx + 2` to `position idx + 1`
(`after_element`). -/
def display_current_path (a : Analysis) : List (Nat × InsertionPoint) :=
  (1, ⟨0, "after_source", none⟩) ::
    a.path_sequence.enum.map
      (fun p => (p.1 + 2, ⟨p.1 + 1, "after_element", some p.2⟩))

/-- The element document `enrich_analysis` creates for a new element. -/
def mkElement (element_type movement_type : String) (position : Nat) :
    Json :=
  Json.obj [("type", .str element_type),
            ("source_info", .obj []),
            ("destination_info", .obj []),
            ("additional_data", .arrStr []),
            ("movement_type", .str movement_type),
            ("path_position", .num position)]

/-- The element-adding body of `NetworkPathAnalyzer.enrich_analysis` for
one loop iteration: an input `position` not in `insertion_points` makes the
loop `continue` without touching the analysis; otherwise, only when
`element_name not in self.analysis["network_elements"]`, the element dict
is created and the name inserted into `path_sequence` at
`insertion_points[position]["position"]`. -/
def enrich_add (a : Analysis) (position : Nat)
    (element_name element_type movement_type : String) : Analysis :=
  match List.lookup position (display_current_path a) with
  | none => a
  | some pt =>
    if (List.lookup element_name a.network_elements).isSome then a
    else
      { a with
        network_elements :=
          a.network_elements ++
            [(element_name, mkElement element_type movement_type position)],
        path_sequence := pyInsert pt.position element_name a.path_sequence }

/-- The user's reply to `"Where to insert this pivot point?"` after
`int(position)`: either a parsed integer or a `ValueError`. -/
inductive PosInput where
  | num (n : Int)
  | nonNum

/-- Integer key lookup into the `insertion_points` dict (whose keys are the
positive ints 1..N+1, so no negative int ever matches). -/
def lookupPoint (pts : List (Nat × InsertionPoint)) (n : Int) :
    Option InsertionPoint :=
  if 0 ≤ n then List.lookup n.toNat pts else none

/-- `NetworkPathAnalyzer.add_pivot_point`: builds the pivot element
(reading `initial_detection["source_ip"]`, a raising dict access modelled
by `Option`), stores it under `"PIVOT_" + name`, then: a non-numeric
position input falls into the `except ValueError` branch and appends the
pivot at the end of `path_sequence`; a numeric input that is a key of
`insertion_points` inserts at that point's position; a numeric input that
is not a key silently leaves `path_sequence` unchanged. -/
def add_pivot_point (a : Analysis)
    (pivot_name pivot_ip pivot_type : String) (pos : PosInput) :
    Option Analysis :=
  match a.initial_detection.get? "source_ip" with
  | none => none
  | some srcIp =>
    let pname := "PIVOT_" ++ pivot_name
    let pelem := Json.obj
      [("type", .str "pivot_point"),
       ("pivot_ip", .str pivot_ip),
       ("pivot_method", .str pivot_type),
       ("source_info", Json.obj [("original_path", srcIp)]),
       ("destination_info", Json.obj [("pivot_target", .str pivot_ip)]),
       ("movement_type", .str "lateral_movement")]
    let a' := { a with network_elements := upsert a.network_elements pname pelem }
    some (match pos with
      | .nonNum => { a' with path_sequence := a'.path_sequence ++ [pname] }
      | .num n =>
        match lookupPoint (display_current_path a') n with
        | some pt =>
            { a' with
              path_sequence := pyInsert pt.position pname a'.path_sequence }
        | none => a')

/-- The element document built by the API's `update_case` for one entry of
`network_elements` in a PATCH request (the optional `notes` key appended
when present). -/
def apiElementDoc (element_type movement_type : String)
    (source_info destination_info : List (String × Json)) (ts : String)
    (notes : Option String) : Json :=
  Json.obj
    ([("type", .str element_type),
      ("movement_type", .str movement_type),
      ("source_info", .obj source_info),
      ("destination_info", .obj destination_info),
      ("added_timestamp", .str ts)] ++
     (match notes with
      | some s => [("notes", Json.str s)]
      | none => []))

/-- One iteration of `update_case`'s element loop:
`analysis["network_elements"][element.name] = element_data` followed by an
unconditional `analysis["path_sequence"].append(element.name)`. -/
def api_add_element (a : Analysis) (name : String) (edoc : Json) :
    Analysis :=
  { a with
    network_elements := upsert a.network_elements name edoc,
    path_sequence := a.path_sequence ++ [name] }

/-- The whole element loop of `update_case` over the request's element
list. -/
def api_add_elements (a : Analysis) (elems : List (String × Json)) :
    Analysis :=
  elems.foldl (fun acc e => api_add_element acc e.1 e.2) a

/-- A response of the FastAPI layer: a JSON body with status 200, or a
raised `HTTPException` with its status code and detail string. -/
inductive ApiResult where
  | ok (body : Json)
  | httpError (status : Nat) (detail : String)

/-- `DELETE /cases/{case_id}` against the `JsonStorage` backend: a 404 when
`case_exists` fails, otherwise the deliberate
`HTTPException(status_code=501, detail="Delete functionality not yet
implemented")`; no storage mutation exists on either branch. -/
def delete_case_json (s : JsonStorage.FileState) (id : String) :
    ApiResult × JsonStorage.FileState :=
  if JsonStorage.case_exists s id then
    (.httpError 501 "Delete functionality not yet implemented", s)
  else
    (.httpError 404 "Case not found", s)

/-- `DELETE /cases/{case_id}` against the `MongoStorageSync` backend. -/
def delete_case_mongo (fail : Bool) (s : MongoStorageSync.MongoState)
    (id : String) : ApiResult × MongoStorageSync.MongoState :=
  if MongoStorageSync.case_exists fail s id then
    (.httpError 501 "Delete functionality not yet implemented", s)
  else
    (.httpError 404 "Case not found", s)

/-- The document `NetworkPathAnalyzer.save_case_to_db` persists: alongside
the three content fields it stores the bookkeeping fields `case_id`,
`timestamp` and `last_updated`. -/
def save_case_doc (case_id timestamp : String) (a : Analysis)
    (last_updated : String) : Json :=
  Json.obj [("case_id", .str case_id),
            ("timestamp", .str timestamp),
            ("initial_detection", a.initial_detection),
            ("network_elements", .obj a.network_elements),
            ("path_sequence", .arrStr a.path_sequence),
            ("last_updated", .str last_updated)]

/-! ### Helper lemmas -/

theorem lookup_upsert (cases : List (String × Json)) (id : String)
    (d : Json) : List.lookup id (upsert cases id d) = some d := by
  induction cases with
  | nil => simp [upsert, List.lookup]
  | cons kv rest ih =>
    obtain ⟨k, v⟩ := kv
    by_cases h : k = id
    · subst h
      simp [upsert, List.lookup]
    · have hb : (k == id) = false := by simpa using h
      have hb' : (id == k) = false := by simpa using Ne.symm h
      simp [upsert, hb, List.lookup, hb', ih]

theorem lookup_isSome_iff {β : Type} (l : List (String × β)) (a : String) :
    (List.lookup a l).isSome = true ↔ a ∈ l.map Prod.fst := by
  induction l with
  | nil => simp [List.lookup]
  | cons kv rest ih =>
    obtain ⟨k, v⟩ := kv
    by_cases h : a = k
    · subst h
      simp [List.lookup]
    · have hb : (a == k) = false := by simpa using h
      simp [List.lookup, hb, ih, h]

theorem lookup_append_self {β : Type} (l : List (String × β)) (a : String)
    (v : β) : (List.lookup a (l ++ [(a, v)])).isSome = true := by
  induction l with
  | nil => simp [List.lookup]
  | cons kv rest ih =>
    obtain ⟨k, w⟩ := kv
    by_cases h : a = k
    · subst h
      simp [List.lookup]
    · have hb : (a == k) = false := by simpa using h
      simp [List.lookup, hb]

theorem pyInsert_getElem {α : Type} (n : Nat) (x : α) (l : List α)
    (h : n ≤ l.length) : (pyInsert n x l)[n]? = some x := by
  induction n generalizing l with
  | zero => simp [pyInsert]
  | succ m ih =>
    cases l with
    | nil => simp at h
    | cons y ys =>
      simp only [List.length_cons] at h
      have hm : m ≤ ys.length := by omega
      simpa [pyInsert] using ih ys hm

theorem pyInsert_count {α : Type} [DecidableEq α] (n : Nat) (x : α)
    (l : List α) : (pyInsert n x l).count x = l.count x + 1 := by
  induction n generalizing l with
  | zero => simp [pyInsert]
  | succ m ih =>
    cases l with
    | nil => simp [pyInsert]
    | cons y ys =>
      simp [pyInsert, List.count_cons, ih ys]
      omega

theorem find?_replaceOne (cs : List MongoStorageSync.MongoDoc) (id : String)
    (doc : MongoStorageSync.MongoDoc) (hd : doc.case_id = id) :
    (MongoStorageSync.replaceOne cs id doc).find?
      (fun c => c.case_id == id) = some doc := by
  induction cs with
  | nil =>
    simp [MongoStorageSync.replaceOne, List.find?, hd]
  | cons c rest ih =>
    by_cases h : c.case_id = id
    · simp [MongoStorageSync.replaceOne, h, List.find?, hd]
    · have hb : (c.case_id == id) = false := by simpa using h
      simp [MongoStorageSync.replaceOne, hb, List.find?, ih]

theorem mem_replaceOne (cs : List MongoStorageSync.MongoDoc) (id : String)
    (doc : MongoStorageSync.MongoDoc) :
    doc ∈ MongoStorageSync.replaceOne cs id doc := by
  induction cs with
  | nil => simp [MongoStorageSync.replaceOne]
  | cons c rest ih =>
    by_cases h : c.case_id = id
    · simp [MongoStorageSync.replaceOne, h]
    · have hb : (c.case_id == id) = false := by simpa using h
      simp [MongoStorageSync.replaceOne, hb]
      right
      exact ih

theorem enum_points_fst (l : List String) (s : Nat) :
    ((List.enumFrom s l).map
        (fun p => (p.1 + 2,
          InsertionPoint.mk (p.1 + 1) "after_element" (some p.2)))).map
      Prod.fst = List.range' (s + 2) l.length := by
  induction l generalizing s with
  | nil => rfl
  | cons x xs ih =>
    have hc : List.enumFrom s (x :: xs) =
        (s, x) :: List.enumFrom (s + 1) xs := rfl
    rw [hc]
    simp only [List.map_cons]
    rw [ih (s + 1)]
    rfl

theorem lookup_enum_points (l : List String) (s k : Nat)
    (h1 : s + 2 ≤ k) (h2 : k ≤ s + l.length + 1) :
    (List.lookup k ((List.enumFrom s l).map
        (fun p => (p.1 + 2,
          InsertionPoint.mk (p.1 + 1) "after_element" (some p.2))))).map
      InsertionPoint.position = some (k - 1) := by
  induction l generalizing s with
  | nil => simp at h1 h2; omega
  | cons x xs ih =>
    have hc : List.enumFrom s (x :: xs) =
        (s, x) :: List.enumFrom (s + 1) xs := rfl
    rw [hc]
    by_cases hk : k = s + 2
    · subst hk
      simp [List.lookup]
    · have hb : (k == s + 2) = false := by simpa using hk
      simp only [List.map_cons, List.lookup, hb]
      have h1' : s + 1 + 2 ≤ k := by omega
      have h2' : k ≤ s + 1 + xs.length + 1 := by
        simp only [List.length_cons] at h2
        omega
      exact ih (s + 1) h1' h2'

theorem display_fst (a : Analysis) :
    (display_current_path a).map Prod.fst =
      List.range' 1 (a.path_sequence.length + 1) := by
  have h := enum_points_fst a.path_sequence 0
  simp only [display_current_path, List.map_cons, List.enum]
  rw [h]
  rfl

theorem display_length (a : Analysis) :
    (display_current_path a).length = a.path_sequence.length + 1 := by
  have h := congrArg List.length (display_fst a)
  simpa using h

theorem display_lookup (a : Analysis) (k : Nat) (h1 : 1 ≤ k)
    (h2 : k ≤ a.path_sequence.length + 1) :
    (List.lookup k (display_current_path a)).map InsertionPoint.position =
      some (k - 1) := by
  by_cases hk : k = 1
  · subst hk
    simp [display_current_path, List.lookup]
  · have hb : (k == 1) = false := by simpa using hk
    have h1' : 0 + 2 ≤ k := by omega
    have h2' : k ≤ 0 + a.path_sequence.length + 1 := by omega
    have := lookup_enum_points a.path_sequence 0 k h1' h2'
    simpa [display_current_path, List.lookup, hb, List.enum] using this

/-! ### Claim theorems -/

/-- C1: for every case with a path of length N, `display_current_path`
exposes exactly N+1 insertion points, numbered 1..N+1; point `k` carries
array position `k - 1`; and the element-adding step of `enrich_analysis`
at point `k` places the (fresh) element name at array index `k - 1` of
`path_sequence`. -/
theorem c1_insertion_points (a : Analysis) (k : Nat)
    (name etype mtype : String)
    (hfresh : (List.lookup name a.network_elements).isSome = false)
    (h1 : 1 ≤ k) (h2 : k ≤ a.path_sequence.length + 1) :
    (display_current_path a).length = a.path_sequence.length + 1 ∧
    (display_current_path a).map Prod.fst =
      List.range' 1 (a.path_sequence.length + 1) ∧
    (List.lookup k (display_current_path a)).map InsertionPoint.position =
      some (k - 1) ∧
    (enrich_add a k name etype mtype).path_sequence[k - 1]? = some name := by
  refine ⟨display_length a, display_fst a, display_lookup a k h1 h2, ?_⟩
  obtain ⟨pt, hpt, hpos⟩ :
      ∃ pt, List.lookup k (display_current_path a) = some pt ∧
        pt.position = k - 1 := by
    have h := display_lookup a k h1 h2
    cases hl : List.lookup k (display_current_path a) with
    | none => rw [hl] at h; simp at h
    | some pt =>
      rw [hl] at h
      simp only [Option.map_some'] at h
      exact ⟨pt, rfl, by simpa using h⟩
  unfold enrich_add
  rw [hpt]
  simp only [hfresh, Bool.false_eq_true, if_false]
  rw [hpos]
  exact pyInsert_getElem (k - 1) name a.path_sequence (by omega)

/-- Witness for C1 at a path of length 1 (`["R1"]`), inserting `"FW1"` at
point 2. -/
theorem c1_insertion_points_witness :
    (display_current_path
      ⟨Json.obj [], [("R1", Json.obj [])], ["R1"]⟩).length = 2 ∧
    (display_current_path
      ⟨Json.obj [], [("R1", Json.obj [])], ["R1"]⟩).map Prod.fst =
        List.range' 1 2 ∧
    (List.lookup 2 (display_current_path
      ⟨Json.obj [], [("R1", Json.obj [])], ["R1"]⟩)).map
        InsertionPoint.position = some 1 ∧
    (enrich_add ⟨Json.obj [], [("R1", Json.obj [])], ["R1"]⟩ 2 "FW1"
      "firewall" "direct_traversal").path_sequence[1]? = some "FW1" :=
  c1_insertion_points ⟨Json.obj [], [("R1", Json.obj [])], ["R1"]⟩ 2 "FW1"
    "firewall" "direct_traversal" (by decide) (by decide) (by decide)

theorem enrich_add_of_mem (a : Analysis) (k : Nat) (n t m : String)
    (h : (List.lookup n a.network_elements).isSome = true) :
    enrich_add a k n t m = a := by
  unfold enrich_add
  cases List.lookup k (display_current_path a) with
  | none => rfl
  | some pt => simp [h]

theorem enrich_add_fresh_eq (a : Analysis) (k : Nat) (n t m : String)
    (hfresh : (List.lookup n a.network_elements).isSome = false)
    (h1 : 1 ≤ k) (h2 : k ≤ a.path_sequence.length + 1) :
    enrich_add a k n t m =
      { a with
        network_elements := a.network_elements ++ [(n, mkElement t m k)],
        path_sequence := pyInsert (k - 1) n a.path_sequence } := by
  obtain ⟨pt, hpt, hpos⟩ :
      ∃ pt, List.lookup k (display_current_path a) = some pt ∧
        pt.position = k - 1 := by
    have h := display_lookup a k h1 h2
    cases hl : List.lookup k (display_current_path a) with
    | none => rw [hl] at h; simp at h
    | some pt =>
      rw [hl] at h
      simp only [Option.map_some'] at h
      exact ⟨pt, rfl, by simpa using h⟩
  unfold enrich_add
  rw [hpt]
  simp only [hfresh, Bool.false_eq_true, if_false]
  rw [hpos]

/-- C5 (amended): the CLI element-adding step of `enrich_analysis` is
idempotent — starting from an analysis that does not yet hold the element,
adding the same name twice (the first time at any valid insertion point,
the second time with any inputs at all) leaves `path_sequence` containing
the name exactly once.  (The PATCH-based API addition does not share this
property; see the counterexample.) -/
theorem c5_cli_add_idempotent (a : Analysis) (k q : Nat)
    (name t m t' m' : String)
    (hfresh : (List.lookup name a.network_elements).isSome = false)
    (hcount : a.path_sequence.count name = 0)
    (h1 : 1 ≤ k) (h2 : k ≤ a.path_sequence.length + 1) :
    (enrich_add (enrich_add a k name t m) q name t' m').path_sequence.count
      name = 1 := by
  rw [enrich_add_fresh_eq a k name t m hfresh h1 h2]
  have hmem :
      (List.lookup name
        (a.network_elements ++ [(name, mkElement t m k)])).isSome = true :=
    lookup_append_self a.network_elements name (mkElement t m k)
  rw [enrich_add_of_mem _ q name t' m' hmem]
  show (pyInsert (k - 1) name a.path_sequence).count name = 1
  rw [pyInsert_count]
  omega

/-- Witness for C5's idempotence theorem: adding `"FW1"` twice at point 1
of an empty path leaves one copy on the path. -/
theorem c5_cli_add_idempotent_witness :
    (enrich_add (enrich_add ⟨Json.obj [], [], []⟩ 1 "FW1" "firewall"
        "direct_traversal") 1 "FW1" "firewall"
        "direct_traversal").path_sequence.count "FW1" = 1 :=
  c5_cli_add_idempotent ⟨Json.obj [], [], []⟩ 1 1 "FW1" "firewall"
    "direct_traversal" "firewall" "direct_traversal" (by decide) (by decide)
    (by decide) (by decide)

/-- C5 counterexample: one PATCH request whose `network_elements` list
names `"FW1"` twice makes `update_case`'s element loop append the name
twice, so `path_sequence` holds a duplicate — refuting the claim that
element addition never duplicates across the API layer. -/
theorem c5_api_duplicate_counterexample :
    (api_add_elements ⟨Json.obj [], [], []⟩
      [("FW1", apiElementDoc "firewall" "direct" [] [] "t0" none),
       ("FW1", apiElementDoc "firewall" "direct" [] [] "t1" none)]).path_sequence
      = ["FW1", "FW1"] ∧
    (api_add_elements ⟨Json.obj [], [], []⟩
      [("FW1", apiElementDoc "firewall" "direct" [] [] "t0" none),
       ("FW1", apiElementDoc "firewall" "direct" [] [] "t1" none)]).path_sequence.count
      "FW1" ≠ 1 := by
  constructor
  · rfl
  · decide

theorem display_mk (d : Json) (els : List (String × Json))
    (p : List String) :
    display_current_path ⟨d, els, p⟩ =
      (1, ⟨0, "after_source", none⟩) ::
        p.enum.map
          (fun q => (q.1 + 2, ⟨q.1 + 1, "after_element", some q.2⟩)) := rfl

/-- C6 (amended): `add_pivot_point` never fails once `source_ip` is
present, but the fallback is asymmetric — a non-numeric position input
(`ValueError`) appends the pivot at the end of `path_sequence`, a numeric
input naming a valid insertion point inserts there, and a numeric input
outside the valid range leaves `path_sequence` unchanged (the pivot is
recorded in `network_elements` only, not placed on the path). -/
theorem c6_pivot_fallback (a : Analysis) (nm ip ty : String) (src : Json)
    (hsrc : a.initial_detection.get? "source_ip" = some src) :
    ((add_pivot_point a nm ip ty PosInput.nonNum).map Analysis.path_sequence =
      some (a.path_sequence ++ ["PIVOT_" ++ nm])) ∧
    (∀ n : Int, lookupPoint (display_current_path a) n = none →
      (add_pivot_point a nm ip ty (PosInput.num n)).map Analysis.path_sequence =
        some a.path_sequence) ∧
    (∀ n : Int, ∀ pt : InsertionPoint,
      lookupPoint (display_current_path a) n = some pt →
      (add_pivot_point a nm ip ty (PosInput.num n)).map Analysis.path_sequence =
        some (pyInsert pt.position ("PIVOT_" ++ nm) a.path_sequence)) := by
  refine ⟨?_, ?_, ?_⟩
  · simp only [add_pivot_point, hsrc]
    rfl
  · intro n hn
    simp only [display_current_path] at hn
    simp only [add_pivot_point, hsrc, display_mk, hn]
    rfl
  · intro n pt hpt
    simp only [display_current_path] at hpt
    simp only [add_pivot_point, hsrc, display_mk, hpt]
    rfl

/-- Witness for C6's fallback theorem: on an empty path (single insertion
point 1), a non-numeric position appends `PIVOT_host01`, while the
out-of-range numeric position 5 leaves the path empty. -/
theorem c6_pivot_fallback_witness :
    ((add_pivot_point
        ⟨Json.obj [("source_ip", Json.str "10.0.0.1")], [], []⟩
        "host01" "10.0.5.7" "RDP" PosInput.nonNum).map
          Analysis.path_sequence = some ["PIVOT_host01"]) ∧
    ((add_pivot_point
        ⟨Json.obj [("source_ip", Json.str "10.0.0.1")], [], []⟩
        "host01" "10.0.5.7" "RDP" (PosInput.num 5)).map
          Analysis.path_sequence = some []) := by
  have h := c6_pivot_fallback
    ⟨Json.obj [("source_ip", Json.str "10.0.0.1")], [], []⟩
    "host01" "10.0.5.7" "RDP" (Json.str "10.0.0.1") rfl
  exact ⟨h.1, h.2.1 5 rfl⟩

/-- C6 counterexample: a pivot given the out-of-range numeric position 5 on
an empty path is NOT appended at the end of `path_sequence` — the path
stays empty, refuting the claim that any out-of-range position falls back
to an append. -/
theorem c6_out_of_range_counterexample :
    (add_pivot_point
        ⟨Json.obj [("source_ip", Json.str "10.0.0.1")], [], []⟩
        "host01" "10.0.5.7" "RDP" (PosInput.num 5)).map
          Analysis.path_sequence = some [] ∧
    (add_pivot_point
        ⟨Json.obj [("source_ip", Json.str "10.0.0.1")], [], []⟩
        "host01" "10.0.5.7" "RDP" (PosInput.num 5)).map
          Analysis.path_sequence ≠ some ["PIVOT_host01"] := by
  constructor
  · rfl
  · decide

/-- C2 (amended): loading an unknown case id (or hitting any read failure)
never raises on either backend, but the returned document differs:
`JsonStorage.load_case` yields the empty-skeleton document
`{initial_detection: {}, network_elements: {}, path_sequence: []}`, while
`MongoStorageSync.load_case` yields the plain empty dict `{}`. -/
theorem c2_load_missing_case :
    (∀ (s : JsonStorage.FileState) (id : String),
      JsonStorage.case_exists s id = false →
      JsonStorage.load_case s id = JsonStorage.emptySkeleton) ∧
    (∀ (fail : Bool) (ms : MongoStorageSync.MongoState) (id : String),
      MongoStorageSync.case_exists fail ms id = false →
      MongoStorageSync.load_case fail ms id = Json.obj []) := by
  constructor
  · intro s id h
    cases s with
    | absent => rfl
    | corrupt => rfl
    | db cs =>
      simp only [JsonStorage.case_exists] at h
      cases hl : List.lookup id cs with
      | none => simp [JsonStorage.load_case, hl]
      | some v => rw [hl] at h; simp at h
  · intro fail ms id h
    cases fail with
    | true => rfl
    | false =>
      unfold MongoStorageSync.load_case
      cases hf : ms.cases.find? (fun c => c.case_id == id) with
      | none => simp [hf]
      | some d =>
        exfalso
        have hmem := List.mem_of_find?_eq_some hf
        have hp := List.find?_some hf
        have hd : d ∈ ms.cases.filter (fun c => c.case_id == id) :=
          List.mem_filter.mpr ⟨hmem, hp⟩
        have hlen : 0 < (ms.cases.filter (fun c => c.case_id == id)).length :=
          List.length_pos.mpr (List.ne_nil_of_mem hd)
        simp [MongoStorageSync.case_exists, hlen] at h

/-- Witness for C2 (amended): looking up `"CASE_B"` in a JSON database that
only holds `"CASE_A"` returns the skeleton; looking it up in an empty
Mongo collection returns `{}`. -/
theorem c2_load_missing_case_witness :
    JsonStorage.load_case
        (.db [("CASE_A", Json.obj [])]) "CASE_B" =
      JsonStorage.emptySkeleton ∧
    MongoStorageSync.load_case false ⟨[]⟩ "CASE_B" = Json.obj [] :=
  ⟨c2_load_missing_case.1 (.db [("CASE_A", Json.obj [])]) "CASE_B"
      (by decide),
   c2_load_missing_case.2 false ⟨[]⟩ "CASE_B" (by decide)⟩

/-- C2 counterexample: for a case id absent from the backend,
`MongoStorageSync.load_case` returns the empty dict `{}`, which is not the
empty-skeleton document the claim promises for every backend. -/
theorem c2_mongo_not_skeleton_counterexample :
    MongoStorageSync.load_case false ⟨[]⟩ "CASE_20250101_000000" =
      Json.obj [] ∧
    Json.obj [] ≠ JsonStorage.emptySkeleton := by
  constructor
  · rfl
  · intro h
    simp [JsonStorage.emptySkeleton] at h

/-- C3: a successful `save_case` followed by `load_case` on the same
backend returns the saved document's `initial_detection`,
`network_elements` and `path_sequence` values (for `MongoStorageSync`, the
whole document verbatim), regardless of bookkeeping fields. -/
theorem c3_save_load_roundtrip
    (cases : List (String × Json)) (id : String)
    (fs : List (String × Json)) (i n p : Json)
    (hi : List.lookup "initial_detection" fs = some i)
    (hn : List.lookup "network_elements" fs = some n)
    (hp : List.lookup "path_sequence" fs = some p)
    (ms : MongoStorageSync.MongoState) (now : Nat) :
    JsonStorage.load_case
        (JsonStorage.save_case .none (.db cases) id (.obj fs)).2 id =
      Json.obj [("initial_detection", i), ("network_elements", n),
                ("path_sequence", p)] ∧
    MongoStorageSync.load_case false
        (MongoStorageSync.save_case false ms id (.obj fs) now).2 id =
      Json.obj fs := by
  constructor
  · show JsonStorage.load_case (.db (upsert cases id (.obj fs))) id = _
    have hl := lookup_upsert cases id (Json.obj fs)
    simp [JsonStorage.load_case, hl, Json.getD, Json.get?, hi, hn, hp]
  · show MongoStorageSync.load_case false
      ⟨MongoStorageSync.replaceOne ms.cases id ⟨id, now, .obj fs⟩⟩ id = _
    have hf := find?_replaceOne ms.cases id ⟨id, now, .obj fs⟩ rfl
    simp [MongoStorageSync.load_case, hf]

/-- Witness for C3 on a concrete case document. -/
theorem c3_save_load_roundtrip_witness :
    JsonStorage.load_case
        (JsonStorage.save_case .none (.db []) "C1"
          (.obj [("initial_detection",
                    Json.obj [("threat_type", Json.str "Malware C2")]),
                 ("network_elements", Json.obj []),
                 ("path_sequence", Json.arrStr ["FW1"]),
                 ("last_updated", Json.str "2025")])).2 "C1" =
      Json.obj [("initial_detection",
                   Json.obj [("threat_type", Json.str "Malware C2")]),
                ("network_elements", Json.obj []),
                ("path_sequence", Json.arrStr ["FW1"])] ∧
    MongoStorageSync.load_case false
        (MongoStorageSync.save_case false ⟨[]⟩ "C1"
          (.obj [("initial_detection",
                    Json.obj [("threat_type", Json.str "Malware C2")]),
                 ("network_elements", Json.obj []),
                 ("path_sequence", Json.arrStr ["FW1"]),
                 ("last_updated", Json.str "2025")]) 7).2 "C1" =
      Json.obj [("initial_detection",
                   Json.obj [("threat_type", Json.str "Malware C2")]),
                ("network_elements", Json.obj []),
                ("path_sequence", Json.arrStr ["FW1"]),
                ("last_updated", Json.str "2025")] :=
  c3_save_load_roundtrip [] "C1"
    [("initial_detection", Json.obj [("threat_type", Json.str "Malware C2")]),
     ("network_elements", Json.obj []),
     ("path_sequence", Json.arrStr ["FW1"]),
     ("last_updated", Json.str "2025")]
    (Json.obj [("threat_type", Json.str "Malware C2")]) (Json.obj [])
    (Json.arrStr ["FW1"]) rfl rfl rfl ⟨[]⟩ 7

/-- C4: on both backends, `case_exists(id)` is true immediately after any
successful `save_case(id, ...)`, and `case_exists` agrees with membership
in `list_cases()` on every state. -/
theorem c4_case_exists_consistent :
    (∀ (fail : JsonStorage.SaveFailure) (s : JsonStorage.FileState)
        (id : String) (d : Json),
      (JsonStorage.save_case fail s id d).1 = true →
      JsonStorage.case_exists (JsonStorage.save_case fail s id d).2 id =
        true) ∧
    (∀ (s : JsonStorage.FileState) (id : String),
      JsonStorage.case_exists s id = true ↔
        id ∈ JsonStorage.list_cases s) ∧
    (∀ (fail : Bool) (ms : MongoStorageSync.MongoState) (id : String)
        (d : Json) (now : Nat),
      (MongoStorageSync.save_case fail ms id d now).1 = true →
      MongoStorageSync.case_exists false
        (MongoStorageSync.save_case fail ms id d now).2 id = true) ∧
    (∀ (fail : Bool) (ms : MongoStorageSync.MongoState) (id : String),
      MongoStorageSync.case_exists fail ms id = true ↔
        id ∈ MongoStorageSync.list_cases fail ms) := by
  refine ⟨?_, ?_, ?_, ?_⟩
  · intro fail s id d h
    cases s with
    | absent => simp [JsonStorage.save_case] at h
    | corrupt => simp [JsonStorage.save_case] at h
    | db cs =>
      cases fail with
      | duringRead => simp [JsonStorage.save_case] at h
      | duringWrite => simp [JsonStorage.save_case] at h
      | none =>
        simp [JsonStorage.save_case, JsonStorage.case_exists,
          lookup_upsert]
  · intro s id
    cases s with
    | absent => simp [JsonStorage.case_exists, JsonStorage.list_cases]
    | corrupt => simp [JsonStorage.case_exists, JsonStorage.list_cases]
    | db cs =>
      show (List.lookup id cs).isSome = true ↔ id ∈ cs.map (·.1)
      exact lookup_isSome_iff cs id
  · intro fail ms id d now h
    cases fail with
    | true => simp [MongoStorageSync.save_case] at h
    | false =>
      show MongoStorageSync.case_exists false
        ⟨MongoStorageSync.replaceOne ms.cases id ⟨id, now, d⟩⟩ id = true
      have hmem := mem_replaceOne ms.cases id ⟨id, now, d⟩
      have hd : (⟨id, now, d⟩ : MongoStorageSync.MongoDoc) ∈
          (MongoStorageSync.replaceOne ms.cases id ⟨id, now, d⟩).filter
            (fun c => c.case_id == id) :=
        List.mem_filter.mpr ⟨hmem, by simp⟩
      have hlen := List.length_pos.mpr (List.ne_nil_of_mem hd)
      simp [MongoStorageSync.case_exists, hlen]
  · intro fail ms id
    cases fail with
    | true => simp [MongoStorageSync.case_exists, MongoStorageSync.list_cases]
    | false =>
      have key : 0 < (ms.cases.filter (fun c => c.case_id == id)).length ↔
          id ∈ ms.cases.map (·.case_id) := by
        constructor
        · intro h
          obtain ⟨c, hc⟩ := List.exists_mem_of_length_pos h
          obtain ⟨hmem, hp⟩ := List.mem_filter.mp hc
          have hcid : c.case_id = id := by simpa using hp
          exact List.mem_map.mpr ⟨c, hmem, hcid⟩
        · intro h
          obtain ⟨c, hmem, hcid⟩ := List.mem_map.mp h
          have hc : c ∈ ms.cases.filter (fun c => c.case_id == id) :=
            List.mem_filter.mpr ⟨hmem, by simp [hcid]⟩
          exact List.length_pos.mpr (List.ne_nil_of_mem hc)
      simpa [MongoStorageSync.case_exists, MongoStorageSync.list_cases]
        using key

/-- Witness for C4: a fresh save of `"C1"` into an empty JSON database and
an empty Mongo collection makes `case_exists` true, and on a one-case
database `case_exists` matches `list_cases` membership. -/
theorem c4_case_exists_consistent_witness :
    JsonStorage.case_exists
        (JsonStorage.save_case .none (.db []) "C1" (Json.obj [])).2 "C1" =
      true ∧
    (JsonStorage.case_exists (.db [("C1", Json.obj [])]) "C1" = true ↔
      "C1" ∈ JsonStorage.list_cases (.db [("C1", Json.obj [])])) ∧
    MongoStorageSync.case_exists false
        (MongoStorageSync.save_case false ⟨[]⟩ "C1" (Json.obj []) 0).2
        "C1" = true :=
  ⟨c4_case_exists_consistent.1 .none (.db []) "C1" (Json.obj []) rfl,
   c4_case_exists_consistent.2.1 (.db [("C1", Json.obj [])]) "C1",
   c4_case_exists_consistent.2.2.1 false ⟨[]⟩ "C1" (Json.obj []) 0 rfl⟩

/-- C7 (amended): `save_case` catches every failure and returns `false`
instead of raising, on both backends.  The prior durable state survives a
`MongoStorageSync` failure and a `JsonStorage` failure that occurs before
the write phase (missing file, unreadable file, read I/O error); but a
`JsonStorage` failure during the write phase leaves the truncated/partial
database file behind, not the prior state. -/
theorem c7_save_failure_semantics :
    (∀ (s : JsonStorage.FileState) (id : String) (d : Json),
      JsonStorage.save_case .duringRead s id d = (false, s)) ∧
    (∀ (fail : JsonStorage.SaveFailure) (id : String) (d : Json),
      JsonStorage.save_case fail .absent id d = (false, .absent) ∧
      JsonStorage.save_case fail .corrupt id d = (false, .corrupt)) ∧
    (∀ (cs : List (String × Json)) (id : String) (d : Json),
      JsonStorage.save_case .duringWrite (.db cs) id d =
        (false, .corrupt)) ∧
    (∀ (ms : MongoStorageSync.MongoState) (id : String) (d : Json)
        (now : Nat),
      MongoStorageSync.save_case true ms id d now = (false, ms)) := by
  refine ⟨?_, ?_, ?_, ?_⟩
  · intro s id d
    cases s <;> rfl
  · intro fail id d
    exact ⟨rfl, rfl⟩
  · intro cs id d
    rfl
  · intro ms id d now
    rfl

/-- C7 counterexample: a write-phase failure while saving `"CASE_B"` into a
database holding `"CASE_A"` returns `false` but leaves the truncated
(`corrupt`) file, in which the previously saved `"CASE_A"` is no longer
observable — refuting the claim that the prior durable state is left
untouched on every save failure. -/
theorem c7_write_failure_counterexample :
    JsonStorage.save_case .duringWrite
        (.db [("CASE_A", Json.obj [("initial_detection", Json.obj [])])])
        "CASE_B" (Json.obj []) =
      (false, .corrupt) ∧
    JsonStorage.case_exists
        (JsonStorage.save_case .duringWrite
          (.db [("CASE_A", Json.obj [("initial_detection", Json.obj [])])])
          "CASE_B" (Json.obj [])).2 "CASE_A" = false ∧
    JsonStorage.case_exists
        (.db [("CASE_A", Json.obj [("initial_detection", Json.obj [])])])
        "CASE_A" = true :=
  ⟨rfl, rfl, by decide⟩

/-- C8: `save_case` has upsert, full-replace semantics on both backends —
saving an absent id creates it, and after two sequential saves of the same
id the loaded result is exactly what loading after the second save alone
would give (for Mongo, the second document verbatim): no field of the
first document survives. -/
theorem c8_upsert_full_replace :
    (∀ (cs : List (String × Json)) (id : String) (d : Json),
      List.lookup id cs = none →
      JsonStorage.case_exists
        (JsonStorage.save_case .none (.db cs) id d).2 id = true) ∧
    (∀ (cs : List (String × Json)) (id : String) (d1 d2 : Json),
      JsonStorage.load_case
          (JsonStorage.save_case .none
            (JsonStorage.save_case .none (.db cs) id d1).2 id d2).2 id =
        JsonStorage.load_case
          (JsonStorage.save_case .none (.db cs) id d2).2 id) ∧
    (∀ (ms : MongoStorageSync.MongoState) (id : String) (d1 d2 : Json)
        (n1 n2 : Nat),
      MongoStorageSync.load_case false
          (MongoStorageSync.save_case false
            (MongoStorageSync.save_case false ms id d1 n1).2 id d2 n2).2
          id = d2) := by
  refine ⟨?_, ?_, ?_⟩
  · intro cs id d _
    simp [JsonStorage.save_case, JsonStorage.case_exists, lookup_upsert]
  · intro cs id d1 d2
    have h1 := lookup_upsert (upsert cs id d1) id d2
    have h2 := lookup_upsert cs id d2
    simp [JsonStorage.save_case, JsonStorage.load_case, h1, h2]
  · intro ms id d1 d2 n1 n2
    have hf := find?_replaceOne
      (MongoStorageSync.replaceOne ms.cases id ⟨id, n1, d1⟩) id
      ⟨id, n2, d2⟩ rfl
    simp [MongoStorageSync.save_case, MongoStorageSync.load_case, hf]

/-- Witness for C8: two saves of `"C1"` with different `description`
values; loading returns the second value, both backends. -/
theorem c8_upsert_full_replace_witness :
    JsonStorage.case_exists
        (JsonStorage.save_case .none (.db []) "C1"
          (Json.obj [("description", Json.str "v1")])).2 "C1" = true ∧
    JsonStorage.load_case
        (JsonStorage.save_case .none
          (JsonStorage.save_case .none (.db []) "C1"
            (Json.obj [("description", Json.str "v1")])).2 "C1"
          (Json.obj [("description", Json.str "v2")])).2 "C1" =
      JsonStorage.load_case
        (JsonStorage.save_case .none (.db []) "C1"
          (Json.obj [("description", Json.str "v2")])).2 "C1" ∧
    MongoStorageSync.load_case false
        (MongoStorageSync.save_case false
          (MongoStorageSync.save_case false ⟨[]⟩ "C1"
            (Json.obj [("description", Json.str "v1")]) 1).2 "C1"
          (Json.obj [("description", Json.str "v2")]) 2).2 "C1" =
      Json.obj [("description", Json.str "v2")] :=
  ⟨c8_upsert_full_replace.1 [] "C1"
      (Json.obj [("description", Json.str "v1")]) rfl,
   c8_upsert_full_replace.2.1 [] "C1"
      (Json.obj [("description", Json.str "v1")])
      (Json.obj [("description", Json.str "v2")]),
   c8_upsert_full_replace.2.2 ⟨[]⟩ "C1"
      (Json.obj [("description", Json.str "v1")])
      (Json.obj [("description", Json.str "v2")]) 1 2⟩

/-- C9: the DELETE endpoint never mutates stored state on either backend;
for an existing case it reports the deliberate 501 "not implemented"
response, which is distinct from a success body and from the 404
"not found" error. -/
theorem c9_delete_not_implemented :
    (∀ (s : JsonStorage.FileState) (id : String),
      (delete_case_json s id).2 = s) ∧
    (∀ (s : JsonStorage.FileState) (id : String),
      JsonStorage.case_exists s id = true →
      (delete_case_json s id).1 =
        ApiResult.httpError 501 "Delete functionality not yet implemented") ∧
    (∀ (s : JsonStorage.FileState) (id : String),
      JsonStorage.case_exists s id = false →
      (delete_case_json s id).1 = ApiResult.httpError 404 "Case not found") ∧
    (∀ (fail : Bool) (ms : MongoStorageSync.MongoState) (id : String),
      (delete_case_mongo fail ms id).2 = ms) ∧
    (∀ (fail : Bool) (ms : MongoStorageSync.MongoState) (id : String),
      MongoStorageSync.case_exists fail ms id = true →
      (delete_case_mongo fail ms id).1 =
        ApiResult.httpError 501 "Delete functionality not yet implemented") ∧
    (∀ (b : Json),
      ApiResult.httpError 501 "Delete functionality not yet implemented" ≠
        ApiResult.ok b) ∧
    ApiResult.httpError 501 "Delete functionality not yet implemented" ≠
      ApiResult.httpError 404 "Case not found" := by
  refine ⟨?_, ?_, ?_, ?_, ?_, ?_, ?_⟩
  · intro s id
    unfold delete_case_json
    split <;> rfl
  · intro s id h
    simp [delete_case_json, h]
  · intro s id h
    simp [delete_case_json, h]
  · intro fail ms id
    unfold delete_case_mongo
    split <;> rfl
  · intro fail ms id h
    simp [delete_case_mongo, h]
  · intro b h
    cases h
  · intro h
    simp at h

/-- Witness for C9 on a database holding `"C1"`: deletion of the existing
`"C1"` answers 501 and keeps the state; deletion of the missing `"C2"`
answers 404. -/
theorem c9_delete_not_implemented_witness :
    (delete_case_json (.db [("C1", Json.obj [])]) "C1").2 =
      .db [("C1", Json.obj [])] ∧
    (delete_case_json (.db [("C1", Json.obj [])]) "C1").1 =
      ApiResult.httpError 501 "Delete functionality not yet implemented" ∧
    (delete_case_json (.db [("C1", Json.obj [])]) "C2").1 =
      ApiResult.httpError 404 "Case not found" ∧
    (delete_case_mongo false ⟨[⟨"C1", 0, Json.obj []⟩]⟩ "C1").1 =
      ApiResult.httpError 501 "Delete functionality not yet implemented" :=
  ⟨c9_delete_not_implemented.1 (.db [("C1", Json.obj [])]) "C1",
   c9_delete_not_implemented.2.1 (.db [("C1", Json.obj [])]) "C1"
     (by decide),
   c9_delete_not_implemented.2.2.1 (.db [("C1", Json.obj [])]) "C2"
     (by decide),
   c9_delete_not_implemented.2.2.2.2.1 false ⟨[⟨"C1", 0, Json.obj []⟩]⟩
     "C1" (by decide)⟩

theorem load_case_keys_eq (s : JsonStorage.FileState) (id : String) :
    (JsonStorage.load_case s id).keys =
      ["initial_detection", "network_elements", "path_sequence"] := by
  cases s with
  | absent => rfl
  | corrupt => rfl
  | db cs =>
    show (match List.lookup id cs with
      | some stored =>
        match stored with
        | Json.obj fs =>
            Json.obj
              [("initial_detection",
                  (Json.obj fs).getD "initial_detection" (Json.obj [])),
               ("network_elements",
                  (Json.obj fs).getD "network_elements" (Json.obj [])),
               ("path_sequence",
                  (Json.obj fs).getD "path_sequence" (Json.arrStr []))]
        | _ => JsonStorage.emptySkeleton
      | none => JsonStorage.emptySkeleton).keys = _
    cases List.lookup id cs with
    | none => rfl
    | some stored => cases stored <;> rfl

theorem get?_eq_none_of_not_mem_keys (j : Json) (k : String)
    (h : k ∉ j.keys) : j.get? k = none := by
  cases j with
  | str s => rfl
  | num n => rfl
  | arrStr xs => rfl
  | obj fs =>
    simp only [Json.keys] at h
    simp only [Json.get?]
    cases hl : List.lookup k fs with
    | none => rfl
    | some v =>
      exfalso
      apply h
      have : (List.lookup k fs).isSome = true := by rw [hl]; rfl
      exact (lookup_isSome_iff fs k).mp this

/-- C10: for every database state, `JsonStorage.load_case` returns a
document with exactly the keys `initial_detection`, `network_elements`,
`path_sequence`; in particular, loading a case that was persisted by
`save_case_to_db` (which stores `case_id`, `timestamp` and `last_updated`
alongside) never exposes those bookkeeping fields. -/
theorem c10_load_case_keys :
    (∀ (s : JsonStorage.FileState) (id : String),
      (JsonStorage.load_case s id).keys =
        ["initial_detection", "network_elements", "path_sequence"]) ∧
    (∀ (cs : List (String × Json)) (cid ts lu : String) (a : Analysis),
      (JsonStorage.load_case
          (JsonStorage.save_case .none (.db cs) cid
            (save_case_doc cid ts a lu)).2 cid).get? "case_id" = none ∧
      (JsonStorage.load_case
          (JsonStorage.save_case .none (.db cs) cid
            (save_case_doc cid ts a lu)).2 cid).get? "timestamp" = none ∧
      (JsonStorage.load_case
          (JsonStorage.save_case .none (.db cs) cid
            (save_case_doc cid ts a lu)).2 cid).get? "last_updated" =
        none) := by
  refine ⟨load_case_keys_eq, ?_⟩
  intro cs cid ts lu a
  refine ⟨?_, ?_, ?_⟩ <;>
    [exact get?_eq_none_of_not_mem_keys _ "case_id"
      (by rw [load_case_keys_eq]; decide);
     exact get?_eq_none_of_not_mem_keys _ "timestamp"
      (by rw [load_case_keys_eq]; decide);
     exact get?_eq_none_of_not_mem_keys _ "last_updated"
      (by rw [load_case_keys_eq]; decide)]
